import Mathlib

/-!
# Verification of `MatrixReactionHandler` (mps-interface-adaptor)

A shallow embedding of `src/MPSInterfaceAdaptor/MatrixReactionHandler.ts`.
Asynchronous I/O against the Matrix transport is modelled by passing the
transport's responses in as explicit function arguments (the environment), and
each operation returns a record of the observable effects it performed
(fetches, emits, log lines, reactions sent, redactions fired) together with its
result value.  `Result<T>` / `ActionResult<T>` from `@gnuxie/typescript-result`
is modelled by `ActionResult`.
-/

namespace MPSInterfaceAdaptor

/-- `ActionResult<T>` / `Result<T>`: either `Ok(value)` or an error carrying an
opaque error object, modelled as a string. -/
inductive ActionResult (α : Type) where
  | ok (value : α)
  | err (error : String)
deriving DecidableEq, Repr

/-- `isError` from the result library. -/
def ActionResult.isError {α : Type} : ActionResult α → Bool
  | .ok _ => false
  | .err _ => true

/-- A JSON value as far as the handler inspects it at runtime: the code only
ever asks `typeof v === "string"`, so every non-string shape collapses to
`other`. -/
inductive JValue where
  | str (s : String)
  | other
deriving DecidableEq, Repr

/-- The `m.relates_to` object of an inbound event's content: the code reads the
`key` and `event_id` properties, either of which may be absent or non-string. -/
structure RelatesTo where
  key : Option JValue
  event_id : Option JValue
deriving DecidableEq, Repr

/-- The raw value stored under the reserved annotation key
`ge.applied-langua.ge.draupnir.reaction_handler`, before validation by
`Value.Decode(ReactionAnnotatedContent, ...)`.  Its three properties may each
be absent or of the wrong shape; a non-object value is `nonObject`. -/
inductive RawAnnotationValue where
  | obj (reaction_map : Option (List (String × JValue)))
        (name : Option JValue)
        (additional_context : Option JValue)
  | nonObject
deriving DecidableEq, Repr

/-- The content of a room event, restricted to the two fields the handler
reads: `content["m.relates_to"]` (on the inbound reaction event) and the
reserved annotation key (on the fetched target event).  `annotation = none`
models the reserved key being absent from the content. -/
structure EventContent where
  relates_to : Option RelatesTo := none
  annotationValue : Option RawAnnotationValue := none
deriving DecidableEq, Repr

/-- A Matrix room event, restricted to the fields the handler reads.
`passesReactionSchema` records the outcome of the external structural check
`Value.Check(ReactionEvent, event)` (the `ReactionEvent` TypeBox schema lives
in `matrix-protection-suite`, outside this repository, so its verdict is taken
as an opaque input). -/
structure RoomEvent where
  event_id : String
  room_id : String
  sender : String
  content : EventContent
  passesReactionSchema : Bool := true
deriving DecidableEq, Repr

/-- A successfully decoded annotation: the shape demanded by the
`ReactionAnnotatedContent` TypeBox schema, namely
`{reaction_map: Record(String, String), name: String,
additional_context: Optional(Unknown)}`. -/
structure AnnotationContent where
  reaction_map : List (String × String)
  name : String
  additional_context : Option JValue
deriving DecidableEq, Repr

/-- Validates that every value of the raw `reaction_map` record is a string
(`Type.Record(Type.String(), Type.String())`). -/
def decodeStringRecord : List (String × JValue) → Option (List (String × String))
  | [] => some []
  | (k, .str v) :: rest => (decodeStringRecord rest).map (fun tail => (k, v) :: tail)
  | (_, .other) :: _ => none

/-- `Value.Decode(ReactionAnnotatedContent, content)` applied to the raw value
found under the reserved annotation key: succeeds exactly when the value is an
object whose `reaction_map` is present with all-string values and whose `name`
is present and a string; `additional_context` is optional and unconstrained. -/
def decodeAnnotationContent : RawAnnotationValue → ActionResult AnnotationContent
  | .nonObject => .err "annotation value is not an object"
  | .obj rm nm ctx =>
    match rm with
    | none => .err "reaction_map missing"
    | some rmRaw =>
      match decodeStringRecord rmRaw with
      | none => .err "reaction_map has a non-string value"
      | some m =>
        match nm with
        | some (.str listenerName) => .ok ⟨m, listenerName, ctx⟩
        | _ => .err "name missing or not a string"

/-- The JavaScript value of the expression
`reactionKey in reactionMap && reactionMap[reactionKey]` — `false` when the key
is absent, and the associated string when present.  `undef` is included because
the source then tests `association === undefined`; for a record decoded as
`Record(String, String)` that value can never actually arise.  (Prototype-chain
keys such as `"constructor"`, which `in` would also report, are not modelled:
the decoded record's own keys are the only ones considered.) -/
inductive JSAssociation where
  | undef
  | jsFalse
  | str (s : String)
deriving DecidableEq, Repr

/-- `reactionKey in reactionMap && reactionMap[reactionKey]`. -/
def associationOf (m : List (String × String)) (key : String) : JSAssociation :=
  match m.lookup key with
  | some v => .str v
  | none => .jsFalse

/-- One invocation of `this.emit(listenerName, reactionKey, association,
additional_context, new Map(Object.entries(reactionMap)), annotatedEvent)`.
The final argument is typed as what the source actually passes: the
`ActionResult` wrapper returned by `getEvent`, not the unwrapped room event. -/
structure Emit where
  listenerName : String
  key : String
  association : JSAssociation
  additional_context : Option JValue
  reactionMap : List (String × String)
  annotatedEvent : ActionResult RoomEvent
deriving DecidableEq, Repr

/-- The observable effects of one `handleEvent` call.  `handleEvent` returns
`Promise<void>` and throws nothing, so the effects are the whole outcome. -/
structure Outcome where
  fetches : Nat := 0
  emits : List Emit := []
  errorLogs : Nat := 0
  infoLogs : Nat := 0
deriving DecidableEq, Repr

/-- The constructor state of a `MatrixReactionHandler`: the room it is bound to
and the client's own user id (whose reactions are ignored). -/
structure HandlerState where
  roomID : String
  clientUserID : String
deriving DecidableEq, Repr

/-- `MatrixReactionHandler.handleEvent(roomID, event)`, with the transport's
`toRoomEventGetter().getEvent` response supplied by `getEvent`.  Translated
branch-for-branch from the source (lines 95–158). -/
def handleEvent (self : HandlerState)
    (getEvent : String → String → ActionResult RoomEvent)
    (roomID : String) (event : RoomEvent) : Outcome :=
  if roomID ≠ self.roomID then {}
  else if event.sender = self.clientUserID then {}
  else if ¬ event.passesReactionSchema then {}
  else
    match event.content.relates_to with
    | none => {}
    | some relatesTo =>
      match relatesTo.event_id, relatesTo.key with
      | some (.str relatedEventId), some (.str reactionKey) =>
        match getEvent roomID relatedEventId with
        | .err _ =>
          -- log.error("Unable to get annotated event", ...)
          { fetches := 1, errorLogs := 1 }
        | .ok target =>
          match target.content.annotationValue with
          | none => { fetches := 1 } -- this event isn't annotated.
          | some raw =>
            match decodeAnnotationContent raw with
            | .err _ =>
              -- log.error("Unable to decode the annotation ...", ...)
              { fetches := 1, errorLogs := 1 }
            | .ok ann =>
              let association := associationOf ann.reaction_map reactionKey
              if association = .undef then
                -- log.info("There wasn't a defined key for ...")
                { fetches := 1, infoLogs := 1 }
              else
                { fetches := 1,
                  emits := [⟨ann.name, reactionKey, association,
                             ann.additional_context, ann.reaction_map,
                             .ok target⟩] }
      | _, _ => {}

/-- `MatrixReactionHandler.addReactionsToEvent(roomID, eventID, reactionMap)`
(lines 188–206).  `keys` is `reactionMap.keys()` in Map iteration (insertion)
order; `send` supplies the transport's response to
`toRoomReactionSender().sendReaction(roomID, eventID, key)` for each key.
Returns the list of reaction keys whose send was attempted, in order, together
with the operation's result: the first failing send's error result, or
`Ok(undefined)` when every send succeeded.  On failure the loop stops; nothing
already sent is undone. -/
def addReactionsToEvent (send : String → ActionResult String) :
    List String → List String × ActionResult Unit
  | [] => ([], .ok ())
  | key :: rest =>
    match send key with
    | .err e =>
      -- log.error("Could not add reaction to event ...", ...); return reactionResult
      ([key], .err e)
    | .ok _ =>
      (key :: (addReactionsToEvent send rest).1, (addReactionsToEvent send rest).2)

/-- A reaction relation event as delivered to the `forEachRelation` callback in
`completePrompt`: its event id and the value of
`event.content?.["m.relates_to"]?.key`, `none` when absent (or not a string,
in which case the equality tests with the marker strings are false anyway). -/
structure RelationEvent where
  event_id : String
  key : Option String
deriving DecidableEq, Repr

/-- One fire-and-forget redaction issued from inside the `forEachRelation`
callback: `void Task(redacter.redactEvent(roomID, event.event_id, reason))`.
`result` is the transport's response, which the source discards. -/
structure FiredRedaction where
  event_id : String
  reason : Option String
  result : ActionResult Unit
deriving DecidableEq, Repr

/-- The behaviour of the external
`toRoomEventRelationsGetter().forEachRelation` call for `relationType:
"m.annotation"`, `eventType: "m.reaction"` on the target event: the relation
events for which it invokes `forEachCB`, in order, and the overall result it
returns. -/
structure EnumerationEnv where
  relations : List RelationEvent
  sweepResult : ActionResult Unit
deriving DecidableEq, Repr

/-- The body of the `forEachCB` callback in `completePrompt` (lines 222–233):
skip the bot's own ✅ / ❌ reactions that mark the event as complete, otherwise
fire a redaction with the given reason (discarding its result). -/
def completePromptCB (redact : String → Option String → ActionResult Unit)
    (reason : Option String) (event : RelationEvent) : Option FiredRedaction :=
  if event.key = some "✅" ∨ event.key = some "❌" then none
  else some ⟨event.event_id, reason, redact event.event_id reason⟩

/-- `MatrixReactionHandler.completePrompt(roomID, eventID, reason?)` (lines
208–236): returns the redactions fired from inside the enumeration callback
together with the value `completePrompt` itself returns, which is whatever the
`forEachRelation` sweep returned. -/
def completePrompt (redact : String → Option String → ActionResult Unit)
    (env : EnumerationEnv) (reason : Option String) :
    List FiredRedaction × ActionResult Unit :=
  (env.relations.filterMap (completePromptCB redact reason), env.sweepResult)

/-- The observable effects and result of one `cancelPrompt` call. -/
structure CancelOutcome where
  fired : List FiredRedaction
  cancelReactionSent : Option String
  errorLogs : Nat
  result : ActionResult Unit
deriving DecidableEq, Repr

/-- `MatrixReactionHandler.cancelPrompt(promptEvent, cancelReason?)` (lines
241–267).  `send` supplies the transport's response to the final
`sendReaction(room_id, event_id, "🚫 Cancelled by <sender>")` call. -/
def cancelPrompt (redact : String → Option String → ActionResult Unit)
    (env : EnumerationEnv) (send : String → ActionResult String)
    (promptEvent : RoomEvent) (cancelReason : Option String) : CancelOutcome :=
  let fired := (completePrompt redact env (some (cancelReason.getD "prompt cancelled"))).1
  let completeResult :=
    (completePrompt redact env (some (cancelReason.getD "prompt cancelled"))).2
  match completeResult with
  | .err e => ⟨fired, none, 0, .err e⟩
  | .ok _ =>
    let reactionKey := "🚫 Cancelled by " ++ promptEvent.sender
    match send reactionKey with
    | .err _ =>
      -- log.error("Could not send cancelled reaction event ...", ...)
      ⟨fired, some reactionKey, 1, completeResult⟩
    | .ok _ => ⟨fired, some reactionKey, 0, completeResult⟩

/-- Digit-collecting loop for `natDigits`, structurally recursive on `fuel`
(so that it evaluates by kernel reduction); `fuel ≥ n` is always enough
iterations since the value shrinks by a factor of ten per step. -/
def natDigitsGo (fuel n : Nat) : List Nat :=
  match fuel with
  | 0 => [n]
  | f + 1 => if n < 10 then [n] else natDigitsGo f (n / 10) ++ [n % 10]

/-- The decimal digits of the mathematical integer `n`, most significant
first.  A specification helper: this exact digit rendering is what
`number.toString()` produces only on the plain-decimal range of doubles; the
full `toString` behaviour, exponential branch included, is `jsToStringChars`
below. -/
def natDigits (n : Nat) : List Nat := natDigitsGo n n

/-- The character for decimal digit `d`. -/
def digitChar (d : Nat) : Char := Char.ofNat (48 + d)

/-- Trailing zero digits removed: the shortest significand `s` with
`s × 10^j` equal to the rendered integer, as required by the exponential
branch of `Number::toString`. -/
def stripTrailingZeros (l : List Nat) : List Nat :=
  (l.reverse.dropWhile (fun d => d == 0)).reverse

/-- ECMAScript `Number::toString(10)` applied to a non-negative integer-valued
double whose exact mathematical value is `n` (every `n < 2^53` is exactly
representable; some larger doubles also carry exact integer values, e.g.
`1e21 = 10^21`).  Below `10^21` the rendering is the plain decimal digit
string; from `10^21` upwards the ECMAScript algorithm switches to exponential
notation — first significand digit, a dot and the remaining significand digits
when there is more than one, then `e+` and the exponent (digit count minus
one), the significand being the digits with trailing zeros stripped — so
`(1e21).toString()` is `"1e+21"`, not a 22-digit numeral. -/
def jsToStringChars (n : Nat) : List Char :=
  if n < 10 ^ 21 then (natDigits n).map digitChar
  else
    match stripTrailingZeros (natDigits n) with
    | [] => []
    | [d] => digitChar d :: 'e' :: '+' ::
        (natDigits ((natDigits n).length - 1)).map digitChar
    | d :: rest => digitChar d :: '.' :: rest.map digitChar ++
        'e' :: '+' :: (natDigits ((natDigits n).length - 1)).map digitChar

/-- The two combining characters appended to a digit by each
`.replace(/d/g, "d︎⃣")` rule: U+FE0F VARIATION SELECTOR-16 and U+20E3 COMBINING
ENCLOSING KEYCAP. -/
def keycapChars : List Char := ['️', '⃣']

/-- `s.replace(/d/g, d + keycap)` for a single digit character `d`, acting on
the string as a character list: every occurrence of `d` gains the two keycap
combining characters. -/
def replaceDigit (d : Char) : List Char → List Char
  | [] => []
  | c :: rest =>
    (if c = d then c :: keycapChars else [c]) ++ replaceDigit d rest

/-- `MatrixReactionHandler.numberToEmoji(number)` (lines 277–292) on the
character list of `number.toString()`: the chain of ten `.replace` calls, one
per decimal digit 0–9 in order. -/
def numberToEmojiChars (n : Nat) : List Char :=
  (List.range 10).foldl (fun s i => replaceDigit (digitChar i) s)
    (jsToStringChars n)

/-- `MatrixReactionHandler.numberToEmoji(number)` as a string. -/
def numberToEmoji (n : Nat) : String :=
  ⟨numberToEmojiChars n⟩

/-- `Map.prototype.set`: replace the value in place when the key is already
present, otherwise append a new entry (JS Maps preserve insertion order). -/
def mapSet (m : List (String × String)) (k v : String) : List (String × String) :=
  if m.any (fun p => p.1 = k) then
    m.map (fun p => if p.1 = k then (k, v) else p)
  else m ++ [(k, v)]

/-- `MatrixReactionHandler.createItemizedReactionMap(items)` (lines 269–275):
`items.reduce((acc, item, index) => acc.set(numberToEmoji(index + 1), item),
new Map())`, as an insertion-ordered association list. -/
def createItemizedReactionMap (items : List String) : List (String × String) :=
  (items.enum).foldl (fun acc p => mapSet acc (numberToEmoji (p.1 + 1)) p.2) []

/-- The relevance filter of `handleEvent` as one Boolean: the event passed the
external `ReactionEvent` schema check and carries `m.relates_to` with both a
string `event_id` and a string `key`. -/
def isRelevantShape (event : RoomEvent) : Bool :=
  event.passesReactionSchema &&
  match event.content.relates_to with
  | none => false
  | some rt =>
    match rt.event_id, rt.key with
    | some (.str _), some (.str _) => true
    | _, _ => false

/-- `associationOf` can never actually be JavaScript `undefined`: the decoded
record associates a string with every present key. -/
theorem associationOf_ne_undef (m : List (String × String)) (key : String) :
    associationOf m key ≠ .undef := by
  unfold associationOf
  cases m.lookup key <;> simp

/-- Any event rejected by the relevance filter produces the empty outcome. -/
theorem handleEvent_eq_empty (self : HandlerState)
    (getEvent : String → String → ActionResult RoomEvent)
    (roomID : String) (event : RoomEvent)
    (h : roomID ≠ self.roomID ∨ event.sender = self.clientUserID ∨
         isRelevantShape event = false) :
    handleEvent self getEvent roomID event = {} := by
  by_cases hroom : roomID ≠ self.roomID
  · simp [handleEvent, hroom]
  by_cases hsender : event.sender = self.clientUserID
  · simp [handleEvent, hroom, hsender]
  have hshape : isRelevantShape event = false := by
    rcases h with h | h | h
    · exact absurd h hroom
    · exact absurd h hsender
    · exact h
  by_cases hpass : event.passesReactionSchema
  case neg => simp [handleEvent, hroom, hsender, hpass]
  rcases hrel : event.content.relates_to with _ | rt
  · simp [handleEvent, hroom, hsender, hpass, hrel]
  rcases heid : rt.event_id with _ | jv
  · simp [handleEvent, hroom, hsender, hpass, hrel, heid]
  rcases hkey : rt.key with _ | jw
  · simp [handleEvent, hroom, hsender, hpass, hrel, heid, hkey]
  cases jv with
  | other => simp [handleEvent, hroom, hsender, hpass, hrel, heid, hkey]
  | str eid =>
    cases jw with
    | other => simp [handleEvent, hroom, hsender, hpass, hrel, heid, hkey]
    | str key =>
      exfalso
      simp [isRelevantShape, hpass, hrel, heid, hkey] at hshape

/-- On the accepted path, `handleEvent` fetches the target once and then
behaves according to the annotation found on it. -/
theorem handleEvent_relevant (self : HandlerState)
    (getEvent : String → String → ActionResult RoomEvent)
    (roomID : String) (event : RoomEvent) (rt : RelatesTo) (eid key : String)
    (hroom : roomID = self.roomID)
    (hsender : event.sender ≠ self.clientUserID)
    (hpass : event.passesReactionSchema = true)
    (hrel : event.content.relates_to = some rt)
    (heid : rt.event_id = some (.str eid))
    (hkey : rt.key = some (.str key)) :
    handleEvent self getEvent roomID event =
      match getEvent roomID eid with
      | .err _ => { fetches := 1, errorLogs := 1 }
      | .ok target =>
        match target.content.annotationValue with
        | none => { fetches := 1 }
        | some raw =>
          match decodeAnnotationContent raw with
          | .err _ => { fetches := 1, errorLogs := 1 }
          | .ok ann =>
            { fetches := 1,
              emits := [⟨ann.name, key, associationOf ann.reaction_map key,
                         ann.additional_context, ann.reaction_map,
                         .ok target⟩] } := by
  have hroomIf : ¬ roomID ≠ self.roomID := by simp [hroom]
  simp only [handleEvent, if_neg hroomIf, if_neg hsender, hpass, hrel, heid, hkey]
  simp only [not_true, if_false]
  rcases hget : getEvent roomID eid with target | e
  · rcases hann : target.content.annotationValue with _ | raw
    · simp [hann]
    · rcases hdec : decodeAnnotationContent raw with ann | e
      · simp [hann, hdec, if_neg (associationOf_ne_undef ann.reaction_map key)]
      · simp [hann, hdec]
  · rfl

section Fixtures

/-- Example handler: bound to `!room:example.com` as `@bot:example.com`. -/
def demoSelf : HandlerState := ⟨"!room:example.com", "@bot:example.com"⟩

/-- Example annotation: reaction map `{"✅": "accept", "❌": "reject"}` with
listener name `onVote`. -/
def demoAnnotationValue : RawAnnotationValue :=
  .obj (some [("✅", .str "accept"), ("❌", .str "reject")])
    (some (.str "onVote")) none

/-- Example annotated target event. -/
def demoTarget : RoomEvent :=
  ⟨"$target", "!room:example.com", "@alice:example.com",
   ⟨none, some demoAnnotationValue⟩, true⟩

/-- Transport environment serving the annotated target event. -/
def demoGetEvent : String → String → ActionResult RoomEvent :=
  fun _ eventID => if eventID = "$target" then .ok demoTarget else .err "not found"

/-- An inbound reaction event with the given reaction key, targeting the
example annotated event, from a third-party sender. -/
def demoReaction (key : String) : RoomEvent :=
  ⟨"$reaction", "!room:example.com", "@carol:example.com",
   ⟨some ⟨some (.str key), some (.str "$target")⟩, none⟩, true⟩

end Fixtures

/-- **C1.** The claim states that a reaction whose symbol is not a key of the
decoded `reaction_map` produces zero dispatches and an informational log.  The
code does the opposite: `reactionKey in reactionMap && reactionMap[reactionKey]`
evaluates to JavaScript `false` (not `undefined`) for a missing key, so the
`association === undefined` guard never fires and `handleEvent` dispatches once
— with `false` as the association — and logs nothing.  Evaluated here at a
"🐟" reaction against the map `{"✅": "accept", "❌": "reject"}`. -/
theorem c1_unmatched_symbol_still_dispatches :
    handleEvent demoSelf demoGetEvent "!room:example.com" (demoReaction "🐟") =
      { fetches := 1,
        emits := [⟨"onVote", "🐟", .jsFalse, none,
                   [("✅", "accept"), ("❌", "reject")], .ok demoTarget⟩],
        errorLogs := 0, infoLogs := 0 } := by
  rfl

/-- **C2.** A "✅" reaction against the map `{"✅": "accept", "❌": "reject"}`
with listener name `onVote` emits exactly once under `onVote`, passing the
symbol, the associated value `accept`, the additional context, and the full
reaction map — but the final argument is the `ActionResult.ok` wrapper
returned by `getEvent`, not the annotated room event itself, contradicting the
claim (and the repository's own CHANGELOG entry for 0.4.1). -/
theorem c2_dispatch_passes_result_wrapper :
    handleEvent demoSelf demoGetEvent "!room:example.com" (demoReaction "✅") =
      { fetches := 1,
        emits := [⟨"onVote", "✅", .str "accept", none,
                   [("✅", "accept"), ("❌", "reject")], .ok demoTarget⟩],
        errorLogs := 0, infoLogs := 0 } ∧
    (handleEvent demoSelf demoGetEvent "!room:example.com"
        (demoReaction "✅")).emits.map (fun e => e.annotatedEvent) =
      [.ok demoTarget] := by
  exact ⟨rfl, rfl⟩

/-- **C3.** Every inbound event rejected by the relevance filter — wrong room,
sender equal to the bound client user id, or not structurally a reaction event
carrying `m.relates_to` with a string key and a string event id — yields the
empty outcome: no fetch, no dispatch, no log, and no error (the embedded
`handleEvent` is total, mirroring the source, which throws nothing). -/
theorem c3_irrelevant_events_are_silent_noops (self : HandlerState)
    (getEvent : String → String → ActionResult RoomEvent)
    (roomID : String) (event : RoomEvent)
    (h : roomID ≠ self.roomID ∨ event.sender = self.clientUserID ∨
         isRelevantShape event = false) :
    handleEvent self getEvent roomID event =
      { fetches := 0, emits := [], errorLogs := 0, infoLogs := 0 } := by
  exact handleEvent_eq_empty self getEvent roomID event h

/-- Witness for C3: a reaction arriving in a different room is a silent no-op. -/
theorem c3_witness :
    handleEvent demoSelf demoGetEvent "!other:example.com" (demoReaction "✅") =
      { fetches := 0, emits := [], errorLogs := 0, infoLogs := 0 } := by
  exact c3_irrelevant_events_are_silent_noops demoSelf demoGetEvent
    "!other:example.com" (demoReaction "✅") (Or.inl (by decide))

/-- **C4.** On the accepted path with a successfully fetched target: if the
reserved annotation key is absent from the target's content, `handleEvent`
silently returns (one fetch, no emit, no log of either severity); if the key is
present but the inner shape fails to decode, it logs once at error severity and
drops the interaction (no emit).  In both cases `handleEvent` returns normally
— no error is surfaced to the caller. -/
theorem c4_decode_failure_modes (self : HandlerState)
    (getEvent : String → String → ActionResult RoomEvent)
    (roomID : String) (event : RoomEvent) (rt : RelatesTo)
    (eid key : String) (target : RoomEvent)
    (hroom : roomID = self.roomID)
    (hsender : event.sender ≠ self.clientUserID)
    (hpass : event.passesReactionSchema = true)
    (hrel : event.content.relates_to = some rt)
    (heid : rt.event_id = some (.str eid))
    (hkey : rt.key = some (.str key))
    (hget : getEvent roomID eid = .ok target) :
    (target.content.annotationValue = none →
       handleEvent self getEvent roomID event =
         { fetches := 1, emits := [], errorLogs := 0, infoLogs := 0 }) ∧
    (∀ raw e, target.content.annotationValue = some raw →
       decodeAnnotationContent raw = .err e →
       handleEvent self getEvent roomID event =
         { fetches := 1, emits := [], errorLogs := 1, infoLogs := 0 }) := by
  have hmain := handleEvent_relevant self getEvent roomID event rt eid key
    hroom hsender hpass hrel heid hkey
  constructor
  · intro hann
    rw [hmain]
    simp only [hget, hann]
  · intro raw e hann hdec
    rw [hmain]
    simp only [hget, hann, hdec]

/-- A target event with no annotation under the reserved key. -/
def unannotatedTarget : RoomEvent :=
  ⟨"$plain", "!room:example.com", "@alice:example.com", ⟨none, none⟩, true⟩

/-- A target event whose reserved annotation key holds a non-object value. -/
def malformedTarget : RoomEvent :=
  ⟨"$bad", "!room:example.com", "@alice:example.com",
   ⟨none, some .nonObject⟩, true⟩

/-- A reaction event targeting the given event id. -/
def demoReactionTo (targetID key : String) : RoomEvent :=
  ⟨"$reaction2", "!room:example.com", "@carol:example.com",
   ⟨some ⟨some (.str key), some (.str targetID)⟩, none⟩, true⟩

/-- Transport environment serving the unannotated and malformed targets. -/
def demoGetEvent2 : String → String → ActionResult RoomEvent :=
  fun _ eventID =>
    if eventID = "$plain" then .ok unannotatedTarget
    else if eventID = "$bad" then .ok malformedTarget
    else .err "not found"

/-- Witness for C4: both decode failure modes at concrete inputs. -/
theorem c4_witness :
    handleEvent demoSelf demoGetEvent2 "!room:example.com"
        (demoReactionTo "$plain" "✅") =
      { fetches := 1, emits := [], errorLogs := 0, infoLogs := 0 } ∧
    handleEvent demoSelf demoGetEvent2 "!room:example.com"
        (demoReactionTo "$bad" "✅") =
      { fetches := 1, emits := [], errorLogs := 1, infoLogs := 0 } := by
  constructor
  · exact (c4_decode_failure_modes demoSelf demoGetEvent2 "!room:example.com"
      (demoReactionTo "$plain" "✅") ⟨some (.str "✅"), some (.str "$plain")⟩
      "$plain" "✅" unannotatedTarget rfl (by decide) rfl rfl rfl rfl rfl).1 rfl
  · exact (c4_decode_failure_modes demoSelf demoGetEvent2 "!room:example.com"
      (demoReactionTo "$bad" "✅") ⟨some (.str "✅"), some (.str "$bad")⟩
      "$bad" "✅" malformedTarget rfl (by decide) rfl rfl rfl rfl rfl).2
      .nonObject "annotation value is not an object" rfl rfl

/-- **C9 (counterexample).** The claim lists the unmatched-symbol case among
the zero-emit early-exit paths, but a "🐟" reaction against a map without that
key performs one emit, not zero. -/
theorem c9_counterexample :
    (handleEvent demoSelf demoGetEvent "!room:example.com"
       (demoReaction "🐟")).emits.length = 1 := by
  rfl

/-- **C9 (amended).** A single `handleEvent` call performs at most one fetch
and at most one emit, for every input; the wrong-room, self-sender,
non-reaction-shape, fetch-failure, and missing- or malformed-annotation paths
perform zero emits.  (The unmatched-symbol path is not an early exit: it
dispatches once, see the counterexample.) -/
theorem c9_at_most_one_fetch_and_emit (self : HandlerState)
    (getEvent : String → String → ActionResult RoomEvent)
    (roomID : String) (event : RoomEvent) :
    ((handleEvent self getEvent roomID event).fetches ≤ 1 ∧
     (handleEvent self getEvent roomID event).emits.length ≤ 1) ∧
    ((roomID ≠ self.roomID ∨ event.sender = self.clientUserID ∨
        isRelevantShape event = false) →
      (handleEvent self getEvent roomID event).emits = []) ∧
    (∀ rt eid key, event.content.relates_to = some rt →
       rt.event_id = some (.str eid) → rt.key = some (.str key) →
       ((∀ e, getEvent roomID eid = .err e →
           (handleEvent self getEvent roomID event).emits = []) ∧
        (∀ target, getEvent roomID eid = .ok target →
           target.content.annotationValue = none →
           (handleEvent self getEvent roomID event).emits = []) ∧
        (∀ target raw e, getEvent roomID eid = .ok target →
           target.content.annotationValue = some raw →
           decodeAnnotationContent raw = .err e →
           (handleEvent self getEvent roomID event).emits = []))) := by
  refine ⟨?_, ?_, ?_⟩
  · unfold handleEvent
    repeat' split
    all_goals try rw [if_neg (associationOf_ne_undef _ _)]
    all_goals exact ⟨by simp, by simp⟩
  · intro h
    rw [handleEvent_eq_empty self getEvent roomID event h]
  · intro rt eid key hrel heid hkey
    by_cases hroom : roomID = self.roomID
    case neg =>
      have h := handleEvent_eq_empty self getEvent roomID event (Or.inl hroom)
      exact ⟨fun _ _ => by rw [h], fun _ _ _ => by rw [h],
             fun _ _ _ _ _ _ => by rw [h]⟩
    by_cases hsender : event.sender = self.clientUserID
    · have h := handleEvent_eq_empty self getEvent roomID event (Or.inr (Or.inl hsender))
      exact ⟨fun _ _ => by rw [h], fun _ _ _ => by rw [h],
             fun _ _ _ _ _ _ => by rw [h]⟩
    by_cases hpass : event.passesReactionSchema = true
    case neg =>
      have hshape : isRelevantShape event = false := by
        simp [isRelevantShape, hpass]
      have h := handleEvent_eq_empty self getEvent roomID event (Or.inr (Or.inr hshape))
      exact ⟨fun _ _ => by rw [h], fun _ _ _ => by rw [h],
             fun _ _ _ _ _ _ => by rw [h]⟩
    have hmain := handleEvent_relevant self getEvent roomID event rt eid key
      hroom hsender hpass hrel heid hkey
    refine ⟨fun e hget => by rw [hmain]; simp only [hget],
            fun target hget hann => by rw [hmain]; simp only [hget, hann],
            fun target raw e hget hann hdec => by
              rw [hmain]; simp only [hget, hann, hdec]⟩

/-- Witness for C9 (amended): the bound and the zero-emit early exits at
concrete inputs. -/
theorem c9_witness :
    (handleEvent demoSelf demoGetEvent "!room:example.com"
       (demoReaction "✅")).emits.length ≤ 1 ∧
    (handleEvent demoSelf demoGetEvent "!other:example.com"
       (demoReaction "✅")).emits = [] := by
  constructor
  · exact (c9_at_most_one_fetch_and_emit demoSelf demoGetEvent
      "!room:example.com" (demoReaction "✅")).1.2
  · exact (c9_at_most_one_fetch_and_emit demoSelf demoGetEvent
      "!other:example.com" (demoReaction "✅")).2.1 (Or.inl (by decide))

/-- **C5.** `addReactionsToEvent` attempts one send per key, sequentially in
map iteration order: the attempted keys are the longest all-successful prefix
plus, when a failure occurs, the single first failing key (nothing after it is
attempted, and nothing already sent is undone — there is no rollback
operation); the returned result is the first failing send's error, and it is
`Ok` exactly when every key's send succeeded. -/
theorem c5_addReactions_sequential_until_failure
    (send : String → ActionResult String) (keys : List String) :
    (addReactionsToEvent send keys).1 =
        keys.takeWhile (fun k => !(send k).isError) ++
        (keys.dropWhile (fun k => !(send k).isError)).take 1 ∧
    (addReactionsToEvent send keys).2 =
        (match keys.dropWhile (fun k => !(send k).isError) with
         | [] => ActionResult.ok ()
         | k :: _ =>
           match send k with
           | .ok _ => ActionResult.ok ()
           | .err e => ActionResult.err e) ∧
    ((addReactionsToEvent send keys).2 = .ok () ↔
        ∀ k ∈ keys, (send k).isError = false) := by
  induction keys with
  | nil => simp [addReactionsToEvent]
  | cons k rest ih =>
    obtain ⟨ih1, ih2, ih3⟩ := ih
    rcases hsk : send k with v | e
    · have hok : (send k).isError = false := by simp [hsk, ActionResult.isError]
      refine ⟨?_, ?_, ?_⟩
      · simp [addReactionsToEvent, hsk, List.takeWhile_cons, List.dropWhile_cons,
              ActionResult.isError, hok, ih1]
      · simp [addReactionsToEvent, hsk, List.dropWhile_cons, ActionResult.isError,
              hok, ih2]
      · simp [addReactionsToEvent, hsk, ActionResult.isError, hok, ih3]
    · have hbad : (send k).isError = true := by simp [hsk, ActionResult.isError]
      refine ⟨?_, ?_, ?_⟩
      · simp [addReactionsToEvent, hsk, List.takeWhile_cons, List.dropWhile_cons,
              ActionResult.isError, hbad]
      · simp [addReactionsToEvent, hsk, List.dropWhile_cons, ActionResult.isError, hbad]
      · simp only [addReactionsToEvent, hsk]
        constructor
        · intro h
          exact absurd h (by simp)
        · intro h
          exact absurd (h k (by simp)) (by simp [hbad])

/-- Witness for C5: with keys `["1️⃣", "2️⃣", "3️⃣"]` and the send failing on
`"2️⃣"`, only the first two sends are attempted and the failure is returned. -/
theorem c5_witness :
    (addReactionsToEvent
        (fun k => if k = "2️⃣" then .err "send failed" else .ok "$ev")
        ["1️⃣", "2️⃣", "3️⃣"]).1 = ["1️⃣", "2️⃣"] ∧
    (addReactionsToEvent
        (fun k => if k = "2️⃣" then .err "send failed" else .ok "$ev")
        ["1️⃣", "2️⃣", "3️⃣"]).2 = .err "send failed" := by
  have h := c5_addReactions_sequential_until_failure
    (fun k => if k = "2️⃣" then .err "send failed" else .ok "$ev")
    ["1️⃣", "2️⃣", "3️⃣"]
  exact ⟨by rw [h.1]; decide, by rw [h.2.1]; decide⟩

/-- **C6.** `completePrompt` fires one redaction, carrying the given reason,
for every enumerated `m.annotation`/`m.reaction` relation whose key is not a
terminal marker (✅ or ❌); relations bearing a terminal marker are never
redacted; and the call returns exactly what the enumeration sweep returned, so
an enumeration failure is propagated to the caller. -/
theorem c6_completePrompt_redacts_non_terminal
    (redact : String → Option String → ActionResult Unit)
    (env : EnumerationEnv) (reason : Option String) :
    (∀ ev ∈ env.relations, ev.key ≠ some "✅" → ev.key ≠ some "❌" →
       (⟨ev.event_id, reason, redact ev.event_id reason⟩ : FiredRedaction) ∈
         (completePrompt redact env reason).1) ∧
    (∀ f ∈ (completePrompt redact env reason).1, f.reason = reason ∧
       ∃ ev ∈ env.relations, f.event_id = ev.event_id ∧
         ev.key ≠ some "✅" ∧ ev.key ≠ some "❌") ∧
    (completePrompt redact env reason).2 = env.sweepResult := by
  refine ⟨?_, ?_, rfl⟩
  · intro ev hev h1 h2
    simp only [completePrompt, List.mem_filterMap]
    exact ⟨ev, hev, by simp [completePromptCB, h1, h2]⟩
  · intro f hf
    simp only [completePrompt, List.mem_filterMap] at hf
    obtain ⟨ev, hev, hcb⟩ := hf
    unfold completePromptCB at hcb
    by_cases hterm : ev.key = some "✅" ∨ ev.key = some "❌"
    · simp [hterm] at hcb
    · rw [if_neg hterm] at hcb
      cases hcb
      push_neg at hterm
      exact ⟨rfl, ev, hev, rfl, hterm.1, hterm.2⟩

/-- Example enumeration: one ordinary reaction, one terminal ✅ marker. -/
def c6Env : EnumerationEnv := ⟨[⟨"$r1", some "1️⃣"⟩, ⟨"$r2", some "✅"⟩], .ok ()⟩

/-- A redacter environment in which every redaction fails. -/
def failingRedact : String → Option String → ActionResult Unit :=
  fun _ _ => .err "redaction failed"

/-- Witness for C6: the non-terminal reaction is redacted with the reason, and
the sweep result is returned. -/
theorem c6_witness :
    (⟨"$r1", some "done", .err "redaction failed"⟩ : FiredRedaction) ∈
      (completePrompt failingRedact c6Env (some "done")).1 ∧
    (completePrompt failingRedact c6Env (some "done")).2 = .ok () := by
  have h := c6_completePrompt_redacts_non_terminal failingRedact c6Env (some "done")
  exact ⟨h.1 ⟨"$r1", some "1️⃣"⟩ (by decide) (by decide) (by decide), h.2.2⟩

/-- **C10.** The result `completePrompt` returns is exactly the enumeration
sweep's result: the redactions fired inside the callback are discarded
(`void Task(...)` in the source), so the returned result does not depend on
the redacter at all, and the call can return success even when every fired
redaction failed. -/
theorem c10_result_independent_of_redactions
    (redact redact2 : String → Option String → ActionResult Unit)
    (env : EnumerationEnv) (reason : Option String) :
    (completePrompt redact env reason).2 = env.sweepResult ∧
    (completePrompt redact env reason).2 = (completePrompt redact2 env reason).2 ∧
    (env.sweepResult = .ok () →
       (completePrompt redact env reason).2 = .ok ()) := by
  exact ⟨rfl, rfl, fun h => h⟩

/-- Witness for C10: with a successful sweep and a redacter that always fails,
`completePrompt` still returns success while the fired redaction failed. -/
theorem c10_witness :
    (completePrompt failingRedact c6Env (some "done")).2 = .ok () ∧
    (completePrompt failingRedact c6Env (some "done")).1.map
        (fun f => f.result) = [.err "redaction failed"] := by
  exact ⟨(c10_result_independent_of_redactions failingRedact failingRedact
            c6Env (some "done")).2.2 rfl, by decide⟩

/-- **C7.** `cancelPrompt` runs the redaction sweep with the caller's reason,
defaulting to "prompt cancelled"; a sweep failure is returned as-is and the
"cancelled by" reaction is not sent; on sweep success the one cancellation
reaction naming the sender is sent and the successful sweep result is returned
— even when that final send fails, in which case the failure is only logged. -/
theorem c7_cancelPrompt (redact : String → Option String → ActionResult Unit)
    (env : EnumerationEnv) (send : String → ActionResult String)
    (promptEvent : RoomEvent) (cancelReason : Option String) :
    cancelPrompt redact env send promptEvent none =
      cancelPrompt redact env send promptEvent (some "prompt cancelled") ∧
    (∀ e, env.sweepResult = .err e →
       cancelPrompt redact env send promptEvent cancelReason =
         ⟨(completePrompt redact env
             (some (cancelReason.getD "prompt cancelled"))).1, none, 0, .err e⟩) ∧
    (env.sweepResult = .ok () →
       (cancelPrompt redact env send promptEvent cancelReason).cancelReactionSent =
           some ("🚫 Cancelled by " ++ promptEvent.sender) ∧
       (cancelPrompt redact env send promptEvent cancelReason).result = .ok () ∧
       (∀ e, send ("🚫 Cancelled by " ++ promptEvent.sender) = .err e →
          (cancelPrompt redact env send promptEvent cancelReason).errorLogs = 1) ∧
       (∀ v, send ("🚫 Cancelled by " ++ promptEvent.sender) = .ok v →
          (cancelPrompt redact env send promptEvent cancelReason).errorLogs = 0)) := by
  refine ⟨rfl, ?_, ?_⟩
  · intro e he
    simp only [cancelPrompt, completePrompt, he]
  · intro he
    rcases hs : send ("🚫 Cancelled by " ++ promptEvent.sender) with v | e
    · refine ⟨?_, ?_, ?_, ?_⟩ <;>
        simp only [cancelPrompt, completePrompt, he, hs] <;> simp [hs]
    · refine ⟨?_, ?_, ?_, ?_⟩ <;>
        simp only [cancelPrompt, completePrompt, he, hs] <;> simp [hs]

/-- Witness for C7: failing sweep returns the failure without sending the
cancellation reaction; successful sweep with a failing final send still
returns success and logs once. -/
theorem c7_witness :
    cancelPrompt failingRedact ⟨[], .err "enumeration failed"⟩
        (fun _ => .ok "$c") demoTarget none =
      ⟨[], none, 0, .err "enumeration failed"⟩ ∧
    (cancelPrompt failingRedact c6Env (fun _ => .err "send failed")
        demoTarget none).result = .ok () ∧
    (cancelPrompt failingRedact c6Env (fun _ => .err "send failed")
        demoTarget none).errorLogs = 1 := by
  have h1 := (c7_cancelPrompt failingRedact ⟨[], .err "enumeration failed"⟩
    (fun _ => .ok "$c") demoTarget none).2.1 "enumeration failed" rfl
  have h2 := (c7_cancelPrompt failingRedact c6Env
    (fun _ => .err "send failed") demoTarget none).2.2 rfl
  exact ⟨by rw [h1]; rfl, h2.2.1, h2.2.2.1 "send failed" rfl⟩

/-- The digit loop is insensitive to the fuel as long as there is enough. -/
theorem natDigitsGo_eq (fuel₁ : Nat) : ∀ fuel₂ n, n ≤ fuel₁ → n ≤ fuel₂ →
    natDigitsGo fuel₁ n = natDigitsGo fuel₂ n := by
  induction fuel₁ with
  | zero =>
    intro fuel₂ n h1 _
    have hn : n = 0 := by omega
    subst hn
    cases fuel₂ <;> simp [natDigitsGo]
  | succ f ih =>
    intro fuel₂ n h1 h2
    cases fuel₂ with
    | zero =>
      have hn : n = 0 := by omega
      subst hn
      simp [natDigitsGo]
    | succ f2 =>
      by_cases h : n < 10
      · simp [natDigitsGo, h]
      · have hd1 : n / 10 ≤ f := by omega
        have hd2 : n / 10 ≤ f2 := by omega
        simp [natDigitsGo, h, ih f2 (n / 10) hd1 hd2]

/-- Unfolding equation for `natDigits`. -/
theorem natDigits_def (n : Nat) :
    natDigits n = if n < 10 then [n] else natDigits (n / 10) ++ [n % 10] := by
  by_cases h : n < 10
  · rw [if_pos h]
    unfold natDigits
    cases n with
    | zero => rfl
    | succ m => simp [natDigitsGo, h]
  · rw [if_neg h]
    unfold natDigits
    obtain ⟨m, rfl⟩ : ∃ m, n = m + 1 := ⟨n - 1, by omega⟩
    simp only [natDigitsGo, if_neg h]
    rw [natDigitsGo_eq m ((m + 1) / 10) ((m + 1) / 10) (by omega) (Nat.le_refl _)]

/-- Every entry of `natDigits` is a decimal digit. -/
theorem natDigits_lt_ten (n : Nat) : ∀ d ∈ natDigits n, d < 10 := by
  induction n using Nat.strong_induction_on with
  | _ n ih =>
    rw [natDigits_def]
    by_cases h : n < 10
    · simp [h]
    · have hpos : 0 < n := by omega
      have hdiv : n / 10 < n := Nat.div_lt_self hpos (by norm_num)
      simp only [h, if_false, List.mem_append, List.mem_singleton]
      intro d hd
      rcases hd with hd | hd
      · exact ih (n / 10) hdiv d hd
      · rw [hd]; exact Nat.mod_lt n (by norm_num)

/-- `natDigits` is never empty. -/
theorem natDigits_ne_nil (n : Nat) : natDigits n ≠ [] := by
  rw [natDigits_def]
  split
  · simp
  · simp

/-- A digit replacement pass distributes over concatenation. -/
theorem replaceDigit_append (d : Char) (s t : List Char) :
    replaceDigit d (s ++ t) = replaceDigit d s ++ replaceDigit d t := by
  induction s with
  | nil => simp [replaceDigit]
  | cons c cs ih => simp [replaceDigit, ih]

/-- The whole ten-pass replacement chain distributes over concatenation. -/
theorem foldl_replace_append (l : List Nat) (s t : List Char) :
    l.foldl (fun acc i => replaceDigit (digitChar i) acc) (s ++ t) =
      l.foldl (fun acc i => replaceDigit (digitChar i) acc) s ++
      l.foldl (fun acc i => replaceDigit (digitChar i) acc) t := by
  induction l generalizing s t with
  | nil => rfl
  | cons i rest ih => simp only [List.foldl_cons, replaceDigit_append, ih]

/-- The replacement chain sends the empty string to the empty string. -/
theorem foldl_replace_nil (l : List Nat) :
    l.foldl (fun acc i => replaceDigit (digitChar i) acc) [] = [] := by
  induction l with
  | nil => rfl
  | cons i rest ih => simp only [List.foldl_cons, replaceDigit, ih]

/-- On a single digit character the ten replacement passes produce exactly the
digit followed by the two keycap combining characters. -/
theorem foldl_replace_single (d : Nat) (hd : d < 10) :
    (List.range 10).foldl (fun acc i => replaceDigit (digitChar i) acc)
      [digitChar d] = digitChar d :: keycapChars := by
  interval_cases d <;> rfl

/-- On the plain-decimal range of `toString` (below `10^21`), `numberToEmoji`
concatenates, in order, the keycap symbol of each decimal digit of its
argument. -/
theorem numberToEmojiChars_eq (n : Nat) (hn : n < 10 ^ 21) :
    numberToEmojiChars n =
      (natDigits n).flatMap (fun d => digitChar d :: keycapChars) := by
  unfold numberToEmojiChars jsToStringChars
  rw [if_pos hn]
  have main : ∀ L : List Nat, (∀ d ∈ L, d < 10) →
      (List.range 10).foldl (fun acc i => replaceDigit (digitChar i) acc)
        (L.map digitChar) =
        L.flatMap (fun d => digitChar d :: keycapChars) := by
    intro L
    induction L with
    | nil => intro _; exact foldl_replace_nil _
    | cons d rest ih =>
      intro hL
      have hsplit : (d :: rest).map digitChar = [digitChar d] ++ rest.map digitChar := by
        simp
      rw [hsplit, foldl_replace_append,
          foldl_replace_single d (hL d (by simp)),
          ih (fun x hx => hL x (by simp [hx]))]
      simp
  exact main (natDigits n) (natDigits_lt_ten n)

/-- The place value of a digit list, most significant first. -/
def digitsVal (l : List Nat) : Nat := l.foldl (fun acc d => 10 * acc + d) 0

/-- `digitsVal` of an appended last digit. -/
theorem digitsVal_append_single (l : List Nat) (d : Nat) :
    digitsVal (l ++ [d]) = 10 * digitsVal l + d := by
  simp [digitsVal, List.foldl_append]

/-- `natDigits` round-trips through `digitsVal`: the decimal rendering is
faithful. -/
theorem digitsVal_natDigits (n : Nat) : digitsVal (natDigits n) = n := by
  induction n using Nat.strong_induction_on with
  | _ n ih =>
    rw [natDigits_def]
    by_cases h : n < 10
    · simp [h, digitsVal]
    · have hpos : 0 < n := by omega
      have hdiv : n / 10 < n := Nat.div_lt_self hpos (by norm_num)
      simp only [h, if_false, digitsVal_append_single, ih (n / 10) hdiv]
      omega

/-- Reading back a decimal digit from a character; the two keycap combining
characters read back as nothing. -/
def charToDigit (c : Char) : Option Nat :=
  if 48 ≤ c.toNat ∧ c.toNat ≤ 57 then some (c.toNat - 48) else none

/-- `charToDigit` inverts `digitChar` on decimal digits. -/
theorem charToDigit_digitChar (d : Nat) (hd : d < 10) :
    charToDigit (digitChar d) = some d := by
  interval_cases d <;> rfl

/-- The keycap combining characters are not digits. -/
theorem charToDigit_keycap : keycapChars.filterMap charToDigit = [] := by
  rfl

/-- Below `10^21` the digit list is recoverable from the emoji character
list. -/
theorem filterMap_numberToEmojiChars (n : Nat) (hn : n < 10 ^ 21) :
    (numberToEmojiChars n).filterMap charToDigit = natDigits n := by
  rw [numberToEmojiChars_eq n hn]
  have main : ∀ L : List Nat, (∀ d ∈ L, d < 10) →
      (L.flatMap (fun d => digitChar d :: keycapChars)).filterMap charToDigit = L := by
    intro L
    induction L with
    | nil => intro _; rfl
    | cons d rest ih =>
      intro hL
      have hne : (keycapChars.filterMap charToDigit : List Nat) = [] :=
        charToDigit_keycap
      simp only [List.flatMap_cons, List.filterMap_append, List.filterMap_cons,
        charToDigit_digitChar d (hL d (by simp)), hne,
        ih (fun x hx => hL x (by simp [hx]))]
      simp
  exact main (natDigits n) (natDigits_lt_ten n)

/-- `numberToEmoji` is injective on the plain-decimal range: distinct numbers
below `10^21` get distinct symbols. -/
theorem numberToEmoji_injOn (a b : Nat) (ha : a < 10 ^ 21) (hb : b < 10 ^ 21)
    (hab : numberToEmoji a = numberToEmoji b) : a = b := by
  have hchars : numberToEmojiChars a = numberToEmojiChars b := by
    have := congrArg String.data hab
    simpa [numberToEmoji] using this
  have hdigits : natDigits a = natDigits b := by
    rw [← filterMap_numberToEmojiChars a ha, ← filterMap_numberToEmojiChars b hb,
        hchars]
  calc a = digitsVal (natDigits a) := (digitsVal_natDigits a).symm
    _ = digitsVal (natDigits b) := by rw [hdigits]
    _ = b := digitsVal_natDigits b

/-- The itemize fold appends a fresh entry per item: generalized over the
starting index and accumulator, with all indices kept below the JavaScript
array-length bound `2^32` so the keys stay in the injective range. -/
theorem itemize_fold (items : List String) :
    ∀ (n : Nat) (acc : List (String × String)),
      n + items.length ≤ 2 ^ 32 →
      (∀ q ∈ acc, ∀ j, n ≤ j → j < 2 ^ 32 → q.1 ≠ numberToEmoji (j + 1)) →
      (items.enumFrom n).foldl
          (fun acc p => mapSet acc (numberToEmoji (p.1 + 1)) p.2) acc =
        acc ++ (items.enumFrom n).map (fun p => (numberToEmoji (p.1 + 1), p.2)) := by
  induction items with
  | nil => intro n acc _ _; simp [List.enumFrom]
  | cons item rest ih =>
    intro n acc hbound hacc
    have hlen : n + rest.length + 1 ≤ 2 ^ 32 := by
      simpa [Nat.add_assoc, Nat.add_comm] using hbound
    have hpow : (2 : Nat) ^ 32 < 10 ^ 21 := by norm_num
    have hfresh : acc.any (fun p => p.1 = numberToEmoji (n + 1)) = false := by
      rw [List.any_eq_false]
      intro q hq
      simp only [decide_eq_true_eq]
      exact hacc q hq n (Nat.le_refl n) (by omega)
    have hset : mapSet acc (numberToEmoji (n + 1)) item =
        acc ++ [(numberToEmoji (n + 1), item)] := by
      unfold mapSet
      rw [hfresh]
      simp
    have hnext : ∀ q ∈ acc ++ [(numberToEmoji (n + 1), item)],
        ∀ j, n + 1 ≤ j → j < 2 ^ 32 → q.1 ≠ numberToEmoji (j + 1) := by
      intro q hq j hj hj32
      rcases List.mem_append.mp hq with hq | hq
      · exact hacc q hq j (Nat.le_of_succ_le hj) hj32
      · simp only [List.mem_singleton] at hq
        rw [hq]
        intro hcontr
        have : n + 1 = j + 1 :=
          numberToEmoji_injOn (n + 1) (j + 1) (by omega) (by omega) hcontr
        omega
    simp only [List.enumFrom, List.foldl_cons, List.map_cons, hset]
    rw [ih (n + 1) (acc ++ [(numberToEmoji (n + 1), item)]) (by omega) hnext]
    simp

/-- **C8 (counterexample).** The claim states the per-digit keycap
concatenation for every non-negative integer, but JavaScript doubles switch to
exponential notation at `10^21`: `(1e21).toString()` is `"1e+21"` (and `10^21`
is exactly representable, so this input is expressible), so
`numberToEmoji(1e21)` is `"1️⃣e+2️⃣1️⃣"`, not the 22-digit keycap string. -/
theorem c8_counterexample :
    numberToEmoji (10 ^ 21) = "1️⃣e+2️⃣1️⃣" ∧
    numberToEmoji (10 ^ 21) ≠
      ⟨(natDigits (10 ^ 21)).flatMap (fun d => digitChar d :: keycapChars)⟩ := by
  exact ⟨by decide, by decide⟩

/-- **C8 (amended).** On every JavaScript safe integer — `n < 2^53`, the range
on which the double argument carries `n` exactly, all of it well below the
`10^21` exponential-notation switch — `numberToEmoji` returns the
concatenation, in order, of the keycap symbol of each decimal digit of `n`;
and for every item list of admissible JavaScript array length
(`length < 2^32`), `createItemizedReactionMap` pairs the item at position `i`
with key `numberToEmoji (i + 1)`, produces exactly one entry per item, and no
two items share a symbol. -/
theorem c8_symbol_generator :
    (∀ n : Nat, n < 2 ^ 53 →
       numberToEmoji n =
         ⟨(natDigits n).flatMap (fun d => digitChar d :: keycapChars)⟩) ∧
    (∀ items : List String, items.length < 2 ^ 32 →
       createItemizedReactionMap items =
           items.enum.map (fun p => (numberToEmoji (p.1 + 1), p.2)) ∧
       (createItemizedReactionMap items).length = items.length ∧
       ((createItemizedReactionMap items).map Prod.fst).Nodup) := by
  have hmap : ∀ items : List String, items.length < 2 ^ 32 →
      createItemizedReactionMap items =
        items.enum.map (fun p => (numberToEmoji (p.1 + 1), p.2)) := by
    intro items hlen
    unfold createItemizedReactionMap
    have h := itemize_fold items 0 [] (by omega) (by simp)
    simpa [List.enum] using h
  refine ⟨?_, ?_⟩
  · intro n hn
    have hn21 : n < 10 ^ 21 := by
      have : (2 : Nat) ^ 53 < 10 ^ 21 := by norm_num
      omega
    unfold numberToEmoji
    rw [numberToEmojiChars_eq n hn21]
  · intro items hlen
    refine ⟨hmap items hlen, ?_, ?_⟩
    · rw [hmap items hlen]
      simp [List.enum_length]
    · rw [hmap items hlen]
      have hkeys : (items.enum.map
            (fun p => (numberToEmoji (p.1 + 1), p.2))).map Prod.fst =
          (List.range items.length).map (fun i => numberToEmoji (i + 1)) := by
        rw [List.map_map, ← List.enum_map_fst items, List.map_map]
        rfl
      rw [hkeys]
      have hpow : (2 : Nat) ^ 32 < 10 ^ 21 := by norm_num
      refine List.Nodup.map_on ?_ (List.nodup_range items.length)
      intro a ha b hb hab
      rw [List.mem_range] at ha hb
      have := numberToEmoji_injOn (a + 1) (b + 1) (by omega) (by omega) hab
      omega

/-- Witness for C8 (amended): both conjuncts at concrete inputs, with the
symbolic right-hand sides also evaluated to the literal keycap strings. -/
theorem c8_witness :
    numberToEmoji 12 =
      ⟨(natDigits 12).flatMap (fun d => digitChar d :: keycapChars)⟩ ∧
    numberToEmoji 12 = "1️⃣2️⃣" ∧
    createItemizedReactionMap ["accept", "reject"] =
      ["accept", "reject"].enum.map (fun p => (numberToEmoji (p.1 + 1), p.2)) ∧
    createItemizedReactionMap ["accept", "reject"] =
      [("1️⃣", "accept"), ("2️⃣", "reject")] := by
  refine ⟨c8_symbol_generator.1 12 (by norm_num), by decide,
          (c8_symbol_generator.2 ["accept", "reject"] (by norm_num)).1, by decide⟩

end MPSInterfaceAdaptor
